import Mathlib

/-!
Verification of the currency exchange-rate service (`src/main.go`).

The development shallowly embeds the program: `shopspring/decimal` values are
modelled as rationals (every shopspring Decimal is an exact decimal fraction,
a big-integer coefficient times a power of ten), the two Postgres tables as
lists of rows, and one run of `updateRates` as a pure function over the store
state with explicit failure injection for the network fetch, the JSON decode,
`Begin`, each `Exec` and `Commit`.

String primitives of the Go standard library are modelled on the character
list of the string, so that they compute by structural recursion:
`strStarts` is `strings.HasPrefix`, `strToUpper` is `strings.ToUpper`
(ASCII case mapping, which agrees with Go on every input considered here),
and `String.utf8ByteSize` is Go's byte-length `len` on strings.
-/

namespace CurrencyAPI

namespace Decimal

/-- Rounding half away from zero to an integer: the rounding mode used by both
the `Round` and the `DivRound` method of shopspring/decimal. -/
def rndAway (x : ℚ) : ℤ := if 0 ≤ x then ⌊x + 1/2⌋ else -⌊-x + 1/2⌋

/-- Method `Round` of shopspring/decimal: round half away from zero to `places`
decimal places. -/
def Round (places : ℕ) (d : ℚ) : ℚ := (rndAway (d * 10 ^ places) : ℚ) / 10 ^ places

/-- Method `Div` of shopspring/decimal: `d.Div(d2)` is `d.DivRound(d2, DivisionPrecision)`
with the library default `DivisionPrecision = 16`, so the exact quotient is rounded
half away from zero to 16 decimal places.  The Go method panics when `d2` is zero;
the caller in this model guards that case explicitly. -/
def Div (d d2 : ℚ) : ℚ := Round 16 (d / d2)

end Decimal

/-- Go `strings.HasPrefix(s, p)`, on the character lists. -/
def strStarts (s p : String) : Bool := p.data.isPrefixOf s.data

/-- Go `strings.ToUpper` (ASCII case mapping), on the character list. -/
def strToUpper (s : String) : String := ⟨s.data.map Char.toUpper⟩

/-- Row of the table `exchange_rates` (`currency_code`, `rate_to_base`, `updated_at`). -/
structure RateRow where
  code : String
  rateToBase : ℚ
  updatedAt : Int
deriving DecidableEq

/-- Row of the table `rate_history` (`currency_code`, `rate`, `recorded_at`); the
serial `id` is not observable through any handler and is omitted. -/
structure HistoryEntry where
  code : String
  rate : ℚ
  recordedAt : Int
deriving DecidableEq

/-- The persistent state: current rates plus the append-only history. -/
structure Store where
  rates : List RateRow
  history : List HistoryEntry
deriving DecidableEq

/-- Struct `APIResponse` of `main.go`; the decoded JSON `quotes` map is carried as
an association list (the order stands in for Go's map iteration order, which no
claim proved here depends on). -/
structure APIResponse where
  success : Bool
  timestamp : Int
  quotes : List (String × ℚ)
deriving DecidableEq

/-- Outcome of the fetch-and-decode half of `updateRates`: an `http.Get` error,
a `json.Decoder.Decode` error, or a decoded payload. -/
inductive FetchOutcome where
  | netError
  | jsonError
  | ok (data : APIResponse)
deriving DecidableEq

/-- State of an open transaction: the pending (uncommitted) store plus the
Postgres aborted flag.  Once any statement of the transaction has failed, the
transaction is aborted: every later statement fails without effect and a
`COMMIT` performs a rollback. -/
structure TxState where
  pending : Store
  aborted : Bool
deriving DecidableEq

/-- Statement `INSERT INTO exchange_rates ... ON CONFLICT (currency_code) DO UPDATE
SET rate_to_base = EXCLUDED.rate_to_base, updated_at = NOW()`. -/
def upsertRate (code : String) (rate : ℚ) (now : Int) (rs : List RateRow) : List RateRow :=
  if rs.any (fun r => r.code == code) then
    rs.map (fun r => if r.code == code then ⟨r.code, rate, now⟩ else r)
  else rs ++ [⟨code, rate, now⟩]

/-- One `tx.Exec` whose error the Go code discards: on an already aborted
transaction, or when the statement itself fails, nothing is applied and the
transaction is (or stays) aborted. -/
def txExec (failed : Bool) (f : Store → Store) (tx : TxState) : TxState :=
  if tx.aborted || failed then ⟨tx.pending, true⟩ else ⟨f tx.pending, false⟩

/-- Expression `strings.TrimPrefix(pair, "USD")` in `updateRates`. -/
def stripBase (pair : String) : String :=
  if strStarts pair "USD" then ⟨pair.data.drop 3⟩ else pair

/-- Loop body of `updateRates`: for each quote, strip the base from the pair
symbol and skip it when the result is empty or its byte length is not 3 (Go
`len` on a string is byte length); otherwise upsert the current rate and append
a history row.  `Exec` statements are counted so that failures can be injected
per statement. -/
def syncLoop (execFail : Nat → Bool) (now : Int) :
    List (String × ℚ) → TxState × Nat → TxState × Nat
  | [], st => st
  | (pair, rate) :: rest, (tx, n) =>
    let code := stripBase pair
    if code == "" || code.utf8ByteSize != 3 then
      syncLoop execFail now rest (tx, n)
    else
      let tx1 := txExec (execFail n) (fun s => ⟨upsertRate code rate now s.rates, s.history⟩) tx
      let tx2 := txExec (execFail (n+1)) (fun s => ⟨s.rates, s.history ++ [⟨code, rate, now⟩]⟩) tx1
      syncLoop execFail now rest (tx2, n + 2)

/-- Function `updateRates` of `main.go` as a state transformer on the store, with
explicit failure injection.  A network or JSON error returns before the
transaction is opened; a `Begin` error returns; the deferred `Rollback`
discards the pending writes unless `Commit` succeeds, and `Commit` succeeds
only when no statement failed (Postgres aborts the whole transaction at the
first failed statement, so the ignored `Exec` errors surface as a rollback)
and the commit itself does not fail. -/
def updateRates (fetch : FetchOutcome) (beginFails : Bool) (execFail : Nat → Bool)
    (commitFails : Bool) (now : Int) (s : Store) : Store :=
  match fetch with
  | .netError => s
  | .jsonError => s
  | .ok data =>
    if beginFails then s
    else
      let tx := (syncLoop execFail now data.quotes (⟨s, false⟩, 0)).1
      if tx.aborted || commitFails then s else tx.pending

/-- Query `SELECT rate_to_base FROM exchange_rates WHERE currency_code=$1`;
`none` models `QueryRow ... Scan` reporting no rows. -/
def findRate (rates : List RateRow) (code : String) : Option ℚ :=
  (rates.find? (fun r => r.code == code)).map (fun r => r.rateToBase)

/-- Statement `amount, _ := decimal.NewFromString(...)` followed by
`if amount.IsZero() { amount = decimal.NewFromInt(1) }`: a missing or
unparsable amount leaves the decimal zero value (the parse error is
discarded), and a zero amount is then replaced by 1. -/
def effectiveAmount (amountParsed : Option ℚ) : ℚ :=
  let amount := amountParsed.getD 0
  if amount = 0 then 1 else amount

/-- Expression `amount.Mul(rateTo).Div(rateFrom)` followed by `result.Round(4)`. -/
def convValue (amount rateFrom rateTo : ℚ) : ℚ :=
  Decimal.Round 4 (Decimal.Div (amount * rateTo) rateFrom)

/-- Observable outcome of `handleConvert`: HTTP 404, a crash of the handler
(shopspring `Div` panics when the `from` rate is the zero decimal), or the
`amount` and `result` fields of the JSON body. -/
inductive ConvertResult where
  | notFound
  | divByZero
  | ok (amount result : ℚ)
deriving DecidableEq

/-- Function `handleConvert` of `main.go`.  `amountParsed` is the outcome of
`decimal.NewFromString` on the `amount` query parameter (`none` when the
parameter is absent or unparsable). -/
def handleConvert (rates : List RateRow) (fromParam toParam : String)
    (amountParsed : Option ℚ) : ConvertResult :=
  let fro := strToUpper fromParam
  let tgt := strToUpper toParam
  let amount := effectiveAmount amountParsed
  match findRate rates fro, findRate rates tgt with
  | some rateFrom, some rateTo =>
    if rateFrom = 0 then .divByZero
    else .ok amount (convValue amount rateFrom rateTo)
  | _, _ => .notFound

/-- WHERE clause of the `handleHistory` query: equality on the code plus the
optional inclusive bounds on `recorded_at`, each added only when supplied. -/
def histPred (code : String) (start? end? : Option Int) (e : HistoryEntry) : Bool :=
  e.code == code
    && (match start? with | none => true | some t => decide (t ≤ e.recordedAt))
    && (match end? with | none => true | some t => decide (e.recordedAt ≤ t))

/-- Ordering `ORDER BY recorded_at DESC`. -/
def histLE (a b : HistoryEntry) : Prop := b.recordedAt ≤ a.recordedAt

instance : DecidableRel histLE :=
  fun a b => inferInstanceAs (Decidable (b.recordedAt ≤ a.recordedAt))

instance : IsTotal HistoryEntry histLE :=
  ⟨fun a b => le_total b.recordedAt a.recordedAt⟩

instance : IsTrans HistoryEntry histLE :=
  ⟨fun _ _ _ h1 h2 => le_trans h2 h1⟩

/-- The SQL statement built by `handleHistory`: filter rows by code and the
optional inclusive bounds, `ORDER BY recorded_at DESC`, `LIMIT 100`. -/
def queryHistory (hist : List HistoryEntry) (code : String) (start? end? : Option Int) :
    List HistoryEntry :=
  ((hist.filter (histPred code start? end?)).insertionSort histLE).take 100

/-- Observable outcome of `handleHistory`: HTTP 400 or the returned rows. -/
inductive HistoryResponse where
  | badRequest
  | ok (entries : List HistoryEntry)
deriving DecidableEq

/-- Function `handleHistory` of `main.go`: uppercase the `code` parameter, answer
400 when its byte length is not 3, otherwise run the history query. -/
def handleHistory (hist : List HistoryEntry) (codeParam : String)
    (start? end? : Option Int) : HistoryResponse :=
  let code := strToUpper codeParam
  if code.utf8ByteSize != 3 then .badRequest
  else .ok (queryHistory hist code start? end?)

/-- Expression `strings.TrimPrefix(r.URL.Path, "/rates/")` in `handleSingleRate`. -/
def stripRatesPath (path : String) : String :=
  if strStarts path "/rates/" then ⟨path.data.drop 7⟩ else path

/-- Observable outcome of `handleSingleRate`: HTTP 400, HTTP 404, or the rate
and timestamp of the JSON body. -/
inductive SingleRateResponse where
  | badRequest
  | notFound
  | ok (rate : ℚ) (updatedAt : Int)
deriving DecidableEq

/-- Function `handleSingleRate` of `main.go`: strip the route, uppercase, answer
400 when the byte length is not 3, otherwise look the code up. -/
def handleSingleRate (rates : List RateRow) (path : String) : SingleRateResponse :=
  let code := strToUpper (stripRatesPath path)
  if code.utf8ByteSize != 3 then .badRequest
  else
    match rates.find? (fun r => r.code == code) with
    | none => .notFound
    | some r => .ok r.rateToBase r.updatedAt

namespace Decimal

theorem abs_floorhalf (y : ℚ) : |((⌊y + 1/2⌋ : ℤ) : ℚ) - y| ≤ 1/2 := by
  have h1 : ((⌊y + 1/2⌋ : ℤ) : ℚ) ≤ y + 1/2 := Int.floor_le _
  have h2 : y + 1/2 < ((⌊y + 1/2⌋ : ℤ) : ℚ) + 1 := Int.lt_floor_add_one _
  rw [abs_le]
  constructor <;> linarith

theorem abs_rndAway_sub (x : ℚ) : |((rndAway x : ℤ) : ℚ) - x| ≤ 1/2 := by
  unfold rndAway
  split
  · exact abs_floorhalf x
  · have h := abs_floorhalf (-x)
    rw [show (((-⌊-x + 1/2⌋ : ℤ) : ℚ) - x) = -(((⌊-x + 1/2⌋ : ℤ) : ℚ) - -x) by
      push_cast; ring]
    rwa [abs_neg]

theorem abs_Round_sub (p : ℕ) (x : ℚ) : |Round p x - x| ≤ 1 / (2 * 10 ^ p) := by
  have hp : (0:ℚ) < 10 ^ p := by positivity
  have h := abs_rndAway_sub (x * 10 ^ p)
  unfold Round
  rw [show ((rndAway (x * 10 ^ p) : ℤ) : ℚ) / 10 ^ p - x
      = (((rndAway (x * 10 ^ p) : ℤ) : ℚ) - x * 10 ^ p) / 10 ^ p by field_simp; ring]
  rw [abs_div, abs_of_pos hp]
  calc |((rndAway (x * 10 ^ p) : ℤ) : ℚ) - x * 10 ^ p| / 10 ^ p
      ≤ (1/2) / 10 ^ p := (div_le_div_iff_of_pos_right hp).mpr h
    _ = 1 / (2 * 10 ^ p) := by ring

theorem rndAway_intCast (k : ℤ) : rndAway (k : ℚ) = k := by
  unfold rndAway
  have hhalf : ⌊(1/2 : ℚ)⌋ = 0 := by norm_num
  split
  · rw [show ((k : ℚ) + 1/2) = 1/2 + (k : ℤ) by ring, Int.floor_add_int, hhalf,
      zero_add]
  · rw [show (-(k : ℚ) + 1/2) = 1/2 + (-k : ℤ) by push_cast; ring, Int.floor_add_int, hhalf,
      zero_add, neg_neg]

theorem Round_eq_self (p : ℕ) (x : ℚ) (k : ℤ) (hk : x * 10 ^ p = (k : ℚ)) : Round p x = x := by
  have hp : (10:ℚ) ^ p ≠ 0 := by positivity
  unfold Round
  rw [hk, rndAway_intCast, ← hk, mul_div_assoc, div_self hp, mul_one]

theorem abs_Round4_Round16_sub (y : ℚ) :
    |Round 4 (Round 16 y) - y| ≤ 1/(2 * 10 ^ 4) + 1/(2 * 10 ^ 16) := by
  have h1 := abs_Round_sub 16 y
  have h2 := abs_Round_sub 4 (Round 16 y)
  calc |Round 4 (Round 16 y) - y|
      = |(Round 4 (Round 16 y) - Round 16 y) + (Round 16 y - y)| := by
        rw [sub_add_sub_cancel]
    _ ≤ |Round 4 (Round 16 y) - Round 16 y| + |Round 16 y - y| := abs_add _ _
    _ ≤ 1/(2 * 10 ^ 4) + 1/(2 * 10 ^ 16) := add_le_add h2 h1

end Decimal

/-- C1: if any step of a sync cycle fails — network fetch error, malformed
response body, transaction open, any upsert or history append inside the
transaction (which aborts the Postgres transaction, so the cycle's commit
rolls back), or the commit itself — then the store after `updateRates` is
exactly the store before it: no current-rate row inserted or updated and no
history row appended. -/
theorem sync_atomicity (fetch : FetchOutcome) (beginFails : Bool) (execFail : Nat → Bool)
    (commitFails : Bool) (now : Int) (s : Store)
    (hfail : fetch = .netError ∨ fetch = .jsonError ∨ beginFails = true ∨ commitFails = true ∨
      ∃ data, fetch = .ok data ∧
        ((syncLoop execFail now data.quotes (⟨s, false⟩, 0)).1).aborted = true) :
    updateRates fetch beginFails execFail commitFails now s = s := by
  rcases hfail with h | h | h | h | ⟨data, hd, habort⟩
  · subst h; rfl
  · subst h; rfl
  · cases fetch <;> simp [updateRates, h]
  · cases fetch <;> simp [updateRates, h]
  · subst hd
    simp [updateRates, habort]

/-- Witness for C1: a concrete cycle whose second upsert statement fails leaves
a one-currency store fully intact — no rate update from the first (succeeded)
statement survives and no history row is appended. -/
theorem sync_atomicity_witness :
    updateRates (.ok ⟨true, 44, [("USDEUR", 2), ("USDJPY", 3)]⟩) false (fun n => n == 2) false 7
      ⟨[⟨"EUR", 1, 0⟩], [⟨"EUR", 1, 0⟩]⟩ = ⟨[⟨"EUR", 1, 0⟩], [⟨"EUR", 1, 0⟩]⟩ :=
  sync_atomicity _ false _ false 7 _
    (Or.inr (Or.inr (Or.inr (Or.inr ⟨_, rfl, by decide⟩))))

/-- C10: the provider's `success` flag (and `timestamp`) is never read by
`updateRates`: two payloads with the same quotes produce identical stores, and
in particular a well-formed payload with `success = false` is fully applied. -/
theorem success_flag_ignored :
    (∀ (s1 s2 : Bool) (t1 t2 : Int) (qs : List (String × ℚ)) (bf : Bool) (ef : Nat → Bool)
        (cf : Bool) (now : Int) (store : Store),
        updateRates (.ok ⟨s1, t1, qs⟩) bf ef cf now store =
          updateRates (.ok ⟨s2, t2, qs⟩) bf ef cf now store) ∧
    updateRates (.ok ⟨false, 0, [("USDEUR", 2)]⟩) false (fun _ => false) false 5 ⟨[], []⟩ =
      ⟨[⟨"EUR", 2, 5⟩], [⟨"EUR", 2, 5⟩]⟩ :=
  ⟨fun _ _ _ _ _ _ _ _ _ _ => rfl, by decide⟩

/-- C3 counterexample: the sync filter checks only that the stripped code has
byte length 3, not that it consists of letters.  The snapshot quote
`"USD123" : 1` is applied — a current-rate row with code `"123"` is created —
although `"123"` contains no letter at all, refuting the claim that entries
whose stripped code is not exactly 3 letters are discarded. -/
theorem sync_filter_counterexample :
    (updateRates (.ok ⟨true, 0, [("USD123", 1)]⟩) false (fun _ => false) false 0 ⟨[], []⟩).rates =
      [⟨"123", 1, 0⟩] ∧
    ("123".data.all (fun c => c.isAlpha)) = false :=
  ⟨by decide, by decide⟩

/-- C3 (amended): a quote entry is applied exactly when its pair symbol with the
`USD` base stripped is nonempty of byte length 3 (letters or not); in
particular the snapshot with quotes `USDEUR, USDJPY, USDXX` produces exactly
the two current-rate rows `EUR`, `JPY` and exactly those two history rows,
discarding `USDXX` (stripped code `XX`, length 2). -/
theorem sync_filter_length3 :
    (∀ (pair : String) (rate : ℚ) (now : Int) (s : Store),
      updateRates (.ok ⟨true, 0, [(pair, rate)]⟩) false (fun _ => false) false now s =
        if stripBase pair == "" || (stripBase pair).utf8ByteSize != 3 then s
        else ⟨upsertRate (stripBase pair) rate now s.rates,
              s.history ++ [⟨stripBase pair, rate, now⟩]⟩) ∧
    updateRates (.ok ⟨true, 0, [("USDEUR", 2), ("USDJPY", 150), ("USDXX", 3)]⟩)
        false (fun _ => false) false 7 ⟨[], []⟩ =
      ⟨[⟨"EUR", 2, 7⟩, ⟨"JPY", 150, 7⟩], [⟨"EUR", 2, 7⟩, ⟨"JPY", 150, 7⟩]⟩ := by
  constructor
  · intro pair rate now s
    by_cases h : (stripBase pair == "" || (stripBase pair).utf8ByteSize != 3) = true
    · simp [updateRates, syncLoop, h]
    · simp only [Bool.not_eq_true] at h
      simp [updateRates, syncLoop, h, txExec]
  · decide

/-- C9: a missing, unparsable or zero `amount` parameter (every case in which
`decimal.NewFromString` leaves the discarded-error zero value, or parses an
actual zero) makes `handleConvert` behave exactly as if `amount=1` had been
supplied; in particular it never produces an input error. -/
theorem amount_default_to_one (rates : List RateRow) (fromParam toParam : String)
    (amountParsed : Option ℚ) (h : amountParsed.getD 0 = 0) :
    handleConvert rates fromParam toParam amountParsed =
      handleConvert rates fromParam toParam (some 1) := by
  unfold handleConvert effectiveAmount
  rw [h]
  norm_num

/-- Witness for C9: an absent amount behaves as `amount=1`. -/
theorem amount_default_witness :
    handleConvert [⟨"EUR", 2, 0⟩] "EUR" "EUR" none =
      handleConvert [⟨"EUR", 2, 0⟩] "EUR" "EUR" (some 1) :=
  amount_default_to_one [⟨"EUR", 2, 0⟩] "EUR" "EUR" none rfl

/-- C7 counterexample: the handlers validate only the length of the code, not
that it consists of uppercase letters.  The path code `"123"` is not a
3-letter identifier, yet `handleSingleRate` does not answer 400: it performs
the lookup and answers 404 on an empty store. -/
theorem code_validation_counterexample :
    handleSingleRate [] "/rates/123" = .notFound ∧
    handleSingleRate [] "/rates/123" ≠ .badRequest ∧
    ("123".data.all (fun c => c.isAlpha && c.isUpper)) = false :=
  ⟨by decide, by decide, by decide⟩

/-- C7 (amended): `handleHistory` and `handleSingleRate` answer 400 without any
store lookup (the result is the same for every store) whenever the uppercased
code has byte length other than 3; length-3 codes, letters or not, proceed to
the lookup. -/
theorem code_length_validation (rates : List RateRow) (hist : List HistoryEntry)
    (codeParam path : String) (start? end? : Option Int)
    (h1 : (strToUpper codeParam).utf8ByteSize ≠ 3)
    (h2 : (strToUpper (stripRatesPath path)).utf8ByteSize ≠ 3) :
    handleHistory hist codeParam start? end? = .badRequest ∧
    handleSingleRate rates path = .badRequest := by
  constructor
  · unfold handleHistory
    simp [h1]
  · unfold handleSingleRate
    simp [h2]

/-- Witness for C7 (amended): a 2-byte and a 4-byte code are both rejected. -/
theorem code_length_validation_witness :
    handleHistory [] "EU" none none = .badRequest ∧
    handleSingleRate [] "/rates/EURO" = .badRequest :=
  code_length_validation [] [] "EU" "/rates/EURO" none none (by decide) (by decide)

/-- C2 counterexample: `handleConvert` rounds the result to 4 decimal places,
so converting 0.12345 from EUR to EUR returns 0.1235, not the amount itself:
the identity `convert(A, A, x) = x` fails for amounts with more than 4
decimal digits. -/
theorem convert_identity_counterexample :
    handleConvert [⟨"EUR", 1, 0⟩] "EUR" "EUR" (some (12345/100000)) =
      .ok (12345/100000) (1235/10000) ∧
    (1235/10000 : ℚ) ≠ 12345/100000 := by
  constructor
  · simp only [handleConvert, show strToUpper "EUR" = "EUR" from by decide, findRate,
      List.find?, show ("EUR" == "EUR") = true from by decide, effectiveAmount,
      Option.map, Option.getD]
    norm_num [convValue, Decimal.Div, Decimal.Round, Decimal.rndAway]
  · norm_num

/-- C2 (amended): for a stored nonzero rate of A, converting a nonzero amount x
from A to A returns exactly x whenever x is a multiple of 10^-4 (at most four
decimal digits); in general the identical rates cancel exactly in the decimal
division but the result is then rounded to 4 decimal places, and a zero amount
is replaced by 1 before converting. -/
theorem convert_identity_round4 (rates : List RateRow) (codeParam : String) (r : ℚ) (m : ℤ)
    (hfind : findRate rates (strToUpper codeParam) = some r) (hr : r ≠ 0)
    (x : ℚ) (hx4 : x * 10 ^ 4 = (m : ℚ)) (hx0 : x ≠ 0) :
    handleConvert rates codeParam codeParam (some x) = .ok x x := by
  have hamt : effectiveAmount (some x) = x := by simp [effectiveAmount, hx0]
  have hcv : convValue x r r = x := by
    unfold convValue Decimal.Div
    rw [mul_div_assoc, div_self hr, mul_one]
    have h16 : x * 10 ^ 16 = ((m * 10 ^ 12 : ℤ) : ℚ) := by
      push_cast
      calc x * 10 ^ 16 = x * 10 ^ 4 * 10 ^ 12 := by ring
        _ = (m : ℚ) * 10 ^ 12 := by rw [hx4]
    rw [Decimal.Round_eq_self 16 x _ h16, Decimal.Round_eq_self 4 x m hx4]
  simp [handleConvert, hfind, hr, hamt, hcv]

/-- Witness for C2 (amended): converting 2.5 EUR to EUR with stored rate 3
returns exactly 2.5. -/
theorem convert_identity_witness :
    handleConvert [⟨"EUR", 3, 0⟩] "EUR" "EUR" (some (5/2)) = .ok (5/2) (5/2) :=
  convert_identity_round4 [⟨"EUR", 3, 0⟩] "EUR" 3 25000 (by decide) (by norm_num)
    (5/2) (by norm_num) (by norm_num)

/-- C4 counterexample: the decimal division is performed at the library default
precision of 16 decimal places, not exactly.  With rates 3 (from) and 1 (to)
and amount 0.00014999999999999999997, the exact quotient is
0.00004999999999999999999, whose 4-place rounding is 0; the code first rounds
the quotient to 16 places (0.00005) and then to 4 places, answering 0.0001. -/
theorem convert_contract_counterexample :
    handleConvert [⟨"EUR", 3, 0⟩, ⟨"JPY", 1, 0⟩] "EUR" "JPY"
        (some (3/20000 - 3/10^20)) =
      .ok (3/20000 - 3/10^20) (1/10^4) ∧
    Decimal.Round 4 ((3/20000 - 3/10^20) * 1 / 3) = 0 ∧
    (1/10^4 : ℚ) ≠ 0 := by
  refine ⟨?_, ?_, by norm_num⟩
  · simp only [handleConvert, show strToUpper "EUR" = "EUR" from by decide,
      show strToUpper "JPY" = "JPY" from by decide, findRate, List.find?,
      show ("EUR" == "EUR") = true from by decide,
      show ("EUR" == "JPY") = false from by decide,
      show ("JPY" == "JPY") = true from by decide, effectiveAmount,
      Option.map, Option.getD]
    norm_num [convValue, Decimal.Div, Decimal.Round, Decimal.rndAway]
  · norm_num [Decimal.Round, Decimal.rndAway]

/-- C4 (amended): when both codes have stored rates and the `from` rate is
nonzero, `handleConvert` answers the effective amount (zero or unparsable
amounts are first replaced by 1) times `rate_to(to)`, divided by
`rate_to(from)` at the decimal library's 16-place division precision, rounded
to 4 decimal places; when either lookup misses it answers 404 and produces no
result. -/
theorem convert_contract (rates : List RateRow) (fromParam toParam : String)
    (amountParsed : Option ℚ) :
    (∀ rateFrom rateTo : ℚ,
        findRate rates (strToUpper fromParam) = some rateFrom →
        findRate rates (strToUpper toParam) = some rateTo →
        rateFrom ≠ 0 →
        handleConvert rates fromParam toParam amountParsed =
          .ok (effectiveAmount amountParsed)
            (Decimal.Round 4 (Decimal.Div (effectiveAmount amountParsed * rateTo) rateFrom))) ∧
    ((findRate rates (strToUpper fromParam) = none ∨
        findRate rates (strToUpper toParam) = none) →
      handleConvert rates fromParam toParam amountParsed = .notFound) := by
  constructor
  · intro rateFrom rateTo h1 h2 h3
    simp [handleConvert, h1, h2, h3, convValue]
  · intro h
    rcases h with h | h
    · simp [handleConvert, h]
    · cases hf : findRate rates (strToUpper fromParam) <;> simp [handleConvert, h, hf]

/-- Witness for C4 (amended): 3 EUR at rates 2 (EUR) and 4 (JPY) convert to 6
JPY, and an unknown target currency answers 404. -/
theorem convert_contract_witness :
    handleConvert [⟨"EUR", 2, 0⟩, ⟨"JPY", 4, 0⟩] "eur" "jpy" (some 3) = .ok 3 6 ∧
    handleConvert [⟨"EUR", 2, 0⟩, ⟨"JPY", 4, 0⟩] "eur" "xxx" (some 3) = .notFound := by
  constructor
  · have h := (convert_contract [⟨"EUR", 2, 0⟩, ⟨"JPY", 4, 0⟩] "eur" "jpy" (some 3)).1 2 4
      (by decide) (by decide) (by norm_num)
    rw [h]
    norm_num [effectiveAmount, Decimal.Div, Decimal.Round, Decimal.rndAway]
  · exact (convert_contract [⟨"EUR", 2, 0⟩, ⟨"JPY", 4, 0⟩] "eur" "xxx" (some 3)).2
      (Or.inr (by decide))

/-- C5 counterexample: a zero amount is not scaled linearly to a zero result:
`handleConvert` replaces a zero amount by 1, so converting 0 USD to USD with
stored rate 1 answers result 1, not 0. -/
theorem convert_zero_counterexample :
    handleConvert [⟨"USD", 1, 0⟩] "USD" "USD" (some 0) = .ok 1 1 ∧ (1 : ℚ) ≠ 0 := by
  constructor
  · simp only [handleConvert, show strToUpper "USD" = "USD" from by decide, findRate,
      List.find?, show ("USD" == "USD") = true from by decide, effectiveAmount,
      Option.map, Option.getD]
    norm_num [convValue, Decimal.Div, Decimal.Round, Decimal.rndAway]
  · norm_num

/-- C5 (amended): negative amounts are accepted and scaled linearly through the
conversion formula, but a zero amount is replaced by 1, so converting zero
behaves exactly like converting one unit instead of yielding zero. -/
theorem convert_negative_scaling (rates : List RateRow) (fromParam toParam : String) :
    (∀ x rateFrom rateTo : ℚ, x < 0 →
        findRate rates (strToUpper fromParam) = some rateFrom →
        findRate rates (strToUpper toParam) = some rateTo →
        rateFrom ≠ 0 →
        handleConvert rates fromParam toParam (some x) =
          .ok x (convValue x rateFrom rateTo)) ∧
    handleConvert rates fromParam toParam (some 0) =
      handleConvert rates fromParam toParam (some 1) := by
  constructor
  · intro x rateFrom rateTo hx h1 h2 h3
    have hx0 : x ≠ 0 := ne_of_lt hx
    simp [handleConvert, h1, h2, h3, effectiveAmount, hx0]
  · unfold handleConvert effectiveAmount
    norm_num

/-- Witness for C5 (amended): converting -3 EUR (rate 1) to JPY (rate 2)
answers -6, and a zero amount behaves like amount 1. -/
theorem convert_negative_witness :
    handleConvert [⟨"EUR", 1, 0⟩, ⟨"JPY", 2, 0⟩] "EUR" "JPY" (some (-3)) = .ok (-3) (-6) ∧
    handleConvert [⟨"EUR", 1, 0⟩, ⟨"JPY", 2, 0⟩] "EUR" "JPY" (some 0) =
      handleConvert [⟨"EUR", 1, 0⟩, ⟨"JPY", 2, 0⟩] "EUR" "JPY" (some 1) := by
  constructor
  · have h := (convert_negative_scaling [⟨"EUR", 1, 0⟩, ⟨"JPY", 2, 0⟩] "EUR" "JPY").1
      (-3) 1 2 (by norm_num) (by decide) (by decide) (by norm_num)
    rw [h]
    norm_num [convValue, Decimal.Div, Decimal.Round, Decimal.rndAway]
  · exact (convert_negative_scaling [⟨"EUR", 1, 0⟩, ⟨"JPY", 2, 0⟩] "EUR" "JPY").2

/-- C6: every entry answered by the history query has the requested code and
satisfies each supplied bound inclusively, the answer is ordered by
`recorded_at` descending, and it contains at most 100 entries. -/
theorem queryHistory_spec (hist : List HistoryEntry) (code : String)
    (start? end? : Option Int) :
    (∀ e ∈ queryHistory hist code start? end?,
        e.code = code ∧
        (∀ t, start? = some t → t ≤ e.recordedAt) ∧
        (∀ t, end? = some t → e.recordedAt ≤ t)) ∧
    List.Sorted histLE (queryHistory hist code start? end?) ∧
    (queryHistory hist code start? end?).length ≤ 100 := by
  unfold queryHistory
  refine ⟨?_, ?_, ?_⟩
  · intro e he
    have h1 : e ∈ (hist.filter (histPred code start? end?)).insertionSort histLE :=
      List.take_subset 100 _ he
    rw [List.mem_insertionSort] at h1
    rw [List.mem_filter] at h1
    obtain ⟨-, hp⟩ := h1
    unfold histPred at hp
    rw [Bool.and_eq_true, Bool.and_eq_true] at hp
    obtain ⟨⟨hc, hs⟩, he2⟩ := hp
    refine ⟨by simpa using hc, ?_, ?_⟩
    · rintro t rfl
      simpa using hs
    · rintro t rfl
      simpa using he2
  · exact List.Pairwise.sublist (List.take_sublist 100 _) (List.sorted_insertionSort histLE _)
  · exact List.length_take_le 100 _

/-- Witness for C6 at a concrete history, code and window. -/
theorem queryHistory_spec_witness :
    (∀ e ∈ queryHistory [⟨"EUR", 1, 5⟩, ⟨"EUR", 2, 1⟩, ⟨"JPY", 3, 4⟩] "EUR" (some 1) (some 5),
        e.code = "EUR" ∧
        (∀ t, (some 1 : Option Int) = some t → t ≤ e.recordedAt) ∧
        (∀ t, (some 5 : Option Int) = some t → e.recordedAt ≤ t)) ∧
    List.Sorted histLE
      (queryHistory [⟨"EUR", 1, 5⟩, ⟨"EUR", 2, 1⟩, ⟨"JPY", 3, 4⟩] "EUR" (some 1) (some 5)) ∧
    (queryHistory [⟨"EUR", 1, 5⟩, ⟨"EUR", 2, 1⟩, ⟨"JPY", 3, 4⟩] "EUR" (some 1)
        (some 5)).length ≤ 100 :=
  queryHistory_spec [⟨"EUR", 1, 5⟩, ⟨"EUR", 2, 1⟩, ⟨"JPY", 3, 4⟩] "EUR" (some 1) (some 5)

/-- C8 counterexample: the round-trip fails beyond any rounding tolerance when
the first conversion rounds to zero.  With both rates 1, converting 0.00001
EUR to JPY answers 0; converting that 0 back replaces the zero amount by 1 and
answers 1, which misses the original 0.00001 by far more than the 4-decimal
rounding tolerance of the two conversions. -/
theorem roundtrip_counterexample :
    handleConvert [⟨"EUR", 1, 0⟩, ⟨"JPY", 1, 0⟩] "EUR" "JPY" (some (1/100000)) =
      .ok (1/100000) 0 ∧
    handleConvert [⟨"EUR", 1, 0⟩, ⟨"JPY", 1, 0⟩] "JPY" "EUR" (some 0) = .ok 1 1 ∧
    ¬ (|(1 : ℚ) - 1/100000| ≤ (1/(2 * 10 ^ 4) + 1/(2 * 10 ^ 16)) * (1 + 1/1)) := by
  refine ⟨?_, ?_, ?_⟩
  · simp only [handleConvert, show strToUpper "EUR" = "EUR" from by decide,
      show strToUpper "JPY" = "JPY" from by decide, findRate, List.find?,
      show ("EUR" == "EUR") = true from by decide,
      show ("EUR" == "JPY") = false from by decide,
      show ("JPY" == "JPY") = true from by decide, effectiveAmount, Option.map, Option.getD]
    norm_num [convValue, Decimal.Div, Decimal.Round, Decimal.rndAway]
  · simp only [handleConvert, show strToUpper "EUR" = "EUR" from by decide,
      show strToUpper "JPY" = "JPY" from by decide, findRate, List.find?,
      show ("EUR" == "EUR") = true from by decide,
      show ("EUR" == "JPY") = false from by decide,
      show ("JPY" == "JPY") = true from by decide, effectiveAmount, Option.map, Option.getD]
    norm_num [convValue, Decimal.Div, Decimal.Round, Decimal.rndAway]
  · rw [abs_le]
    rintro ⟨-, h2⟩
    norm_num at h2

/-- C8 (amended): for stored positive rates of A and B and a nonzero amount x,
when the first conversion's 4-decimal result r1 is nonzero, converting x from
A to B answers r1 and converting r1 back from B to A answers a value within
(h4 + h16) * (1 + ra/rb) of x, where h4 and h16 are the half-ulp errors of the
4-place result rounding and the 16-place division rounding. -/
theorem roundtrip_bound (rates : List RateRow) (codeA codeB : String) (x ra rb : ℚ)
    (hA : findRate rates (strToUpper codeA) = some ra)
    (hB : findRate rates (strToUpper codeB) = some rb)
    (hra : 0 < ra) (hrb : 0 < rb) (hx : x ≠ 0)
    (hr1 : Decimal.Round 4 (Decimal.Div (x * rb) ra) ≠ 0) :
    handleConvert rates codeA codeB (some x) =
      .ok x (Decimal.Round 4 (Decimal.Div (x * rb) ra)) ∧
    handleConvert rates codeB codeA (some (Decimal.Round 4 (Decimal.Div (x * rb) ra))) =
      .ok (Decimal.Round 4 (Decimal.Div (x * rb) ra))
        (Decimal.Round 4 (Decimal.Div (Decimal.Round 4 (Decimal.Div (x * rb) ra) * ra) rb)) ∧
    |Decimal.Round 4 (Decimal.Div (Decimal.Round 4 (Decimal.Div (x * rb) ra) * ra) rb) - x| ≤
      (1/(2 * 10 ^ 4) + 1/(2 * 10 ^ 16)) * (1 + ra / rb) := by
  have hra0 : ra ≠ 0 := ne_of_gt hra
  have hrb0 : rb ≠ 0 := ne_of_gt hrb
  refine ⟨?_, ?_, ?_⟩
  · simp [handleConvert, hA, hB, hra0, effectiveAmount, hx, convValue]
  · simp [handleConvert, hA, hB, hrb0, effectiveAmount, hr1, convValue]
  · simp only [Decimal.Div]
    set v := x * rb / ra with hv
    set r1 := Decimal.Round 4 (Decimal.Round 16 v) with hr1v
    set u := r1 * ra / rb with hu
    have hd1 : |r1 - v| ≤ 1/(2 * 10 ^ 4) + 1/(2 * 10 ^ 16) := Decimal.abs_Round4_Round16_sub v
    have hd2 : |Decimal.Round 4 (Decimal.Round 16 u) - u| ≤ 1/(2 * 10 ^ 4) + 1/(2 * 10 ^ 16) :=
      Decimal.abs_Round4_Round16_sub u
    have hquot : (0:ℚ) < ra / rb := div_pos hra hrb
    have hux : u - x = (r1 - v) * (ra / rb) := by
      rw [hu, hv]
      field_simp
      ring
    have h3 : |u - x| ≤ (1/(2 * 10 ^ 4) + 1/(2 * 10 ^ 16)) * (ra / rb) := by
      rw [hux, abs_mul, abs_of_pos hquot]
      exact mul_le_mul_of_nonneg_right hd1 (le_of_lt hquot)
    calc |Decimal.Round 4 (Decimal.Round 16 u) - x|
        = |(Decimal.Round 4 (Decimal.Round 16 u) - u) + (u - x)| := by rw [sub_add_sub_cancel]
      _ ≤ |Decimal.Round 4 (Decimal.Round 16 u) - u| + |u - x| := abs_add _ _
      _ ≤ (1/(2 * 10 ^ 4) + 1/(2 * 10 ^ 16)) +
            (1/(2 * 10 ^ 4) + 1/(2 * 10 ^ 16)) * (ra / rb) := add_le_add hd2 h3
      _ = (1/(2 * 10 ^ 4) + 1/(2 * 10 ^ 16)) * (1 + ra / rb) := by ring

/-- Witness for C8 (amended): 3 EUR (rate 1) converts to 6 JPY (rate 2) and
back to exactly 3, within the stated tolerance. -/
theorem roundtrip_bound_witness :
    handleConvert [⟨"EUR", 1, 0⟩, ⟨"JPY", 2, 0⟩] "EUR" "JPY" (some 3) = .ok 3 6 ∧
    handleConvert [⟨"EUR", 1, 0⟩, ⟨"JPY", 2, 0⟩] "JPY" "EUR" (some 6) = .ok 6 3 ∧
    |(3:ℚ) - 3| ≤ (1/(2 * 10 ^ 4) + 1/(2 * 10 ^ 16)) * (1 + 1/2) := by
  have e1 : Decimal.Round 4 (Decimal.Div ((3:ℚ) * 2) 1) = 6 := by
    norm_num [Decimal.Div, Decimal.Round, Decimal.rndAway]
  have e2 : Decimal.Round 4 (Decimal.Div ((6:ℚ) * 1) 2) = 3 := by
    norm_num [Decimal.Div, Decimal.Round, Decimal.rndAway]
  have h := roundtrip_bound [⟨"EUR", 1, 0⟩, ⟨"JPY", 2, 0⟩] "EUR" "JPY" 3 1 2
    (by decide) (by decide) one_pos two_pos (by norm_num) (by rw [e1]; norm_num)
  rw [e1] at h
  rw [e2] at h
  exact h

end CurrencyAPI
